import Mathlib

/-!
Shallow embedding of the Nataf joint-distribution engine
(`modules/performUQ/common/ERAClasses/ERANataf.py`) and of the marginal
distribution library (`modules/performUQ/UCSD_UQ/pdfs.py`).

Conventions. Double-precision values are modelled by exact rationals (`ℚ`)
wherever the code branches on comparisons, and by `ℝ` / `EReal` where the
code produces logarithms or infinities (`-np.inf` becomes `⊥ : EReal`).
The SciPy root-finding pipeline (`optimize.brentq`, `optimize.fsolve`) is
an external numerical library; its convergence behaviour is abstracted as
an outcome oracle that records, for each processed matrix pair, the
converged value (if any) of every attempt in exactly the order the code
tries them.  `np.sqrt` and `np.log`, which the engine uses only inside the
lognormal closed-form branches, are abstracted as function parameters, as
are `np.log` and `np.pi` in the marginal library.  Python exceptions are
modelled with `Except`: a constructor that raises corresponds to an
`Except.error`, so no (partial) object is produced.
-/

/-- Error kinds raised by the modelled code paths.  The Python code raises
`RuntimeError` (or lets `numpy` raise `IndexError`) with distinct
messages; the constructors distinguish them. -/
inductive NatafErr where
  | discreteMarginal
  | shapeErr
  | notPosDef
  | notSymmetric
  | notUnitDiag
  | transformedNotPD
  | noConvergence
  | indexErr
  deriving DecidableEq, Repr

/-- Names of the discrete marginal families listed in the guard loops of
`ERANataf.X2U` (ERANataf.py lines 288-293) and `ERANataf.pdf`
(lines 392-397). -/
def discreteNames : List String :=
  ["binomial", "geometric", "negativebinomial", "poisson"]

/-- Guard phase of `ERANataf.X2U` (ERANataf.py lines 283-309): first the
discrete-marginal check, then the dimension checks.  `xNdim`, `xRows`,
`xCols` describe the shape of the input after `np.array(X, ndmin=2)`;
the column count used by the final check is the one after the possible
transposition of a single column vector. -/
def ERANataf.X2Ucheck (names : List String) (xNdim xRows xCols : ℕ) :
    Except NatafErr Unit :=
  if names.any (fun s => discreteNames.contains s) then
    .error .discreteMarginal
  else if 2 < xNdim then .error .shapeErr
  else
    let c := if xCols = 1 ∧ names.length ≠ 1 then xRows else xCols
    if c ≠ names.length then .error .shapeErr else .ok ()

/-- Guard phase of `ERANataf.pdf` (ERANataf.py lines 387-413): the same
discrete-marginal check as `X2U`, then the same dimension checks. -/
def ERANataf.pdfCheck (names : List String) (xNdim xRows xCols : ℕ) :
    Except NatafErr Unit :=
  if names.any (fun s => discreteNames.contains s) then
    .error .discreteMarginal
  else if 2 < xNdim then .error .shapeErr
  else
    let c := if xCols = 1 ∧ names.length ≠ 1 then xRows else xCols
    if c ≠ names.length then .error .shapeErr else .ok ()

/-- Guard phase of `ERANataf.cdf` (ERANataf.py lines 454-467): only the
dimension checks are performed; the method body contains no
discrete-marginal loop. -/
def ERANataf.cdfCheck (names : List String) (xNdim xRows xCols : ℕ) :
    Except NatafErr Unit :=
  if 2 < xNdim then .error .shapeErr
  else
    let c := if xCols = 1 ∧ names.length ≠ 1 then xRows else xCols
    if c ≠ names.length then .error .shapeErr else .ok ()

/-! Marginal distribution library, `modules/performUQ/UCSD_UQ/pdfs.py`. -/

/-- Marginal `Uniform` of pdfs.py: two stored bounds. -/
structure Uniform where
  lower : ℚ
  upper : ℚ
  deriving DecidableEq, Repr

/-- Constructor `Uniform.__init__` (pdfs.py lines 21-28), as a fallible
operation: the body only stores `lower` and `upper`, so it always
succeeds, whatever the bounds. -/
def Uniform.init (lower upper : ℚ) : Except NatafErr Uniform :=
  .ok { lower := lower, upper := upper }

/-- Method `Uniform.log_pdf_eval` (pdfs.py lines 35-40).  Every finite
double is a rational, so `np.log` is modelled as an abstract function
`llog : ℚ → ℚ`; outside the closed interval the code assigns
`lp = -np.inf`, modelled as `⊥ : WithBot ℚ`. -/
def Uniform.log_pdf_eval (llog : ℚ → ℚ) (d : Uniform) (x : ℚ) : WithBot ℚ :=
  if (x - d.upper) * (x - d.lower) ≤ 0 then
    (llog (1 / (d.upper - d.lower)) : ℚ)
  else ⊥

/-- Marginal `Halfnormal` of pdfs.py: one stored scale. -/
structure Halfnormal where
  sig : ℚ
  deriving DecidableEq, Repr

/-- Method `Halfnormal.log_pdf_eval` (pdfs.py lines 50-59); `np.log` and
`np.pi` are the abstract parameters `llog` and `qpi`; for `x < 0` the
code assigns `lp = -np.inf`, modelled as `⊥ : WithBot ℚ`. -/
def Halfnormal.log_pdf_eval (llog : ℚ → ℚ) (qpi : ℚ) (h : Halfnormal)
    (x : ℚ) : WithBot ℚ :=
  if 0 ≤ x then
    ((-llog h.sig + (1 / 2) * llog (2 / qpi)
      - (x * x) / (2 * h.sig * h.sig) : ℚ) : WithBot ℚ)
  else ⊥

/-- Marginal `TruncatedExponentialDist` of pdfs.py: the stored parameters
and the derived quantities computed in the constructor. -/
structure TruncatedExponentialDist where
  lower : ℚ
  upper : ℚ
  lamda : ℚ
  scale : ℚ
  loc : ℚ
  b : ℚ
  deriving DecidableEq, Repr

/-- Constructor `TruncatedExponentialDist.__init__` (pdfs.py lines
210-217): stores the parameters and derived quantities; the call
`stats.truncexpon(b=..., loc=..., scale=...)` creates a frozen SciPy
distribution object without validating its arguments, so construction
always succeeds, even when `upper ≤ lower` makes `b` nonpositive. -/
def TruncatedExponentialDist.init (lamda lower upper : ℚ) :
    Except NatafErr TruncatedExponentialDist :=
  .ok { lower := lower, upper := upper, lamda := lamda,
        scale := 1 / lamda, loc := lower, b := (upper - lower) / (1 / lamda) }

/-! Nataf joint engine construction, `ERANataf.__init__`
(ERANataf.py lines 83-262). -/

/-- Pointwise single-entry store `M[a, b] = v` on a matrix represented as
a total function (numpy array writes are modelled functionally). -/
def updM (M : ℕ → ℕ → ℚ) (a b : ℕ) (v : ℚ) : ℕ → ℕ → ℚ :=
  fun p q => if p = a ∧ q = b then v else M p q

/-- Matrix `np.identity(n_dist)`, as a total function on indices. -/
def idQ : ℕ → ℕ → ℚ := fun p q => if p = q then 1 else 0

/-- Squared Frobenius norm of the top-left `d × d` block.  The code
compares `np.linalg.norm(Rho_X - np.identity(n_dist)) > 10 ** (-5)`
(line 147); since both sides are nonnegative this is encoded exactly as
the equivalent comparison of squares, `frobSq > (10 ^ -5) ^ 2`. -/
def frobSq (d : ℕ) (M : ℕ → ℕ → ℚ) : ℚ :=
  ∑ p ∈ Finset.range d, ∑ q ∈ Finset.range d, M p q * M p q

/-- Completion of a matrix from its lower triangle,
`L[p,q] = M[p,q]` for `q ≤ p` and `M[q,p]` otherwise:
`np.linalg.cholesky` reads only the lower triangle of its argument. -/
def symLower (M : ℕ → ℕ → ℚ) : ℕ → ℕ → ℚ :=
  fun p q => if q ≤ p then M p q else M q p

/-- Matrix obtained by deleting row `0` and column `c` (the first minor
used in the Laplace expansion below). -/
def minorM (M : ℕ → ℕ → ℚ) (c : ℕ) : ℕ → ℕ → ℚ :=
  fun p q => M (p + 1) (if q < c then q else q + 1)

/-- Determinant of the top-left `k × k` block, by Laplace expansion along
the first row; `detHead_eq_det` below identifies it with `Matrix.det`. -/
def detHead : ℕ → (ℕ → ℕ → ℚ) → ℚ
  | 0, _ => 1
  | k + 1, M =>
    ∑ c ∈ Finset.range (k + 1), (-1) ^ c * M 0 c * detHead k (minorM M c)

/-- Success condition of `np.linalg.cholesky` (ERANataf.py lines 105 and
256), modelled through Sylvester's criterion: the factorization exists
(no `LinAlgError`) exactly when the symmetric matrix completed from the
lower triangle is positive definite, i.e. when every leading principal
minor is positive. -/
def cholOK (d : ℕ) (M : ℕ → ℕ → ℚ) : Prop :=
  ∀ k, k < d → 0 < detHead (k + 1) (symLower M)

instance (d : ℕ) (M : ℕ → ℕ → ℚ) : Decidable (cholOK d M) := by
  unfold cholOK; infer_instance

/-- Symmetry check `np.all(self.Rho_X - self.Rho_X.T == 0)`
(ERANataf.py line 111) on the top-left `d × d` block. -/
def symmOK (d : ℕ) (M : ℕ → ℕ → ℚ) : Prop :=
  ∀ p, p < d → ∀ q, q < d → M p q - M q p = 0

instance (d : ℕ) (M : ℕ → ℕ → ℚ) : Decidable (symmOK d M) := by
  unfold symmOK; infer_instance

/-- Unit-diagonal check `np.all(np.diag(self.Rho_X) == 1)`
(ERANataf.py line 116). -/
def diagOK (d : ℕ) (M : ℕ → ℕ → ℚ) : Prop :=
  ∀ p, p < d → M p p = 1

instance (d : ℕ) (M : ℕ → ℕ → ℚ) : Decidable (diagOK d M) := by
  unfold diagOK; infer_instance

/-- Validation phase of `ERANataf.__init__` (lines 103-120), in source
order: Cholesky factorizability first, then symmetry, then unit
diagonal.  (The moment-finiteness loop of lines 93-101 precedes these
checks in the code; rational-valued moments are always finite, so it
never fires in this embedding.) -/
def ERANataf.validateRho (d : ℕ) (RX : ℕ → ℕ → ℚ) : Except NatafErr Unit :=
  if ¬ cholOK d RX then .error .notPosDef
  else if ¬ symmOK d RX then .error .notSymmetric
  else if ¬ diagOK d RX then .error .notUnitDiag
  else .ok ()

/-- Outcomes of the root-finding attempts the constructor makes for one
processed pair, in the order the code tries them (ERANataf.py lines
214-254): `optimize.brentq` over `(-1+eps, 1-eps)`, `optimize.fsolve`
seeded at `Rho_X[i,j]`, `optimize.fsolve` seeded at `-Rho_X[i,j]`, and
the ten `optimize.fsolve` runs at random seeds `2*rand()-1`.  `some v`
records a run that reported convergence to `v`; `none` a run that did
not converge. -/
structure PairOutcome where
  brentq : Option ℚ
  fsolveA : Option ℚ
  fsolveB : Option ℚ
  randTries : ℕ → Option ℚ

/-- Index and value of the first convergent among the ten random-seed
`fsolve` runs (the `for i in range(10)` loop of lines 238-244 breaks at
the first success). -/
def firstConv (f : ℕ → Option ℚ) : Option (ℕ × ℚ) :=
  (List.range 10).findSome? fun k => (f k).map fun v => (k, v)

/-- Body of the pairwise fill loop of `ERANataf.__init__` (lines
148-254) for one inner iteration.  The state is the current `Rho_Z`
together with the current value of the Python variable `i`: the
random-restart loop `for i in range(10)` (line 238) reuses the name `i`,
so after a convergent random restart at attempt `k` the store
`self.Rho_Z[i, j] = sol[0]; self.Rho_Z[j, i] = self.Rho_Z[i, j]` (lines
246-247) writes entries `(k, j)` and `(j, k)`, and the remaining
iterations of the `j` loop run with `i = k`; the embedding threads that
variable faithfully.  Row accesses with an out-of-range `i` are numpy
`IndexError`s.  `np.sqrt` and `np.log` of the lognormal closed forms are
the abstract parameters `sqrtF` and `logF`; the Nataf integral equation
solving is represented by the `solver` outcome oracle. -/
def ERANataf.pairBody (d : ℕ) (names : ℕ → String) (mean std : ℕ → ℚ)
    (sqrtF logF : ℚ → ℚ) (solver : ℕ → ℕ → PairOutcome) (RX : ℕ → ℕ → ℚ)
    (st : (ℕ → ℕ → ℚ) × ℕ) (j : ℕ) : Except NatafErr ((ℕ → ℕ → ℚ) × ℕ) :=
  let RZ := st.1
  let i := st.2
  if d ≤ i then .error .indexErr
  else if RX i j = 0 then .ok (RZ, i)
  else if (names i = "standardnormal" ∧ names j = "standardnormal")
      ∨ (names i = "normal" ∧ names j = "normal") then
    .ok (updM (updM RZ i j (RX i j)) j i (RX j i), i)
  else if names i = "normal" ∧ names j = "lognormal" then
    let vj := std j / mean j
    let v := RX i j * vj / sqrtF (logF (1 + vj ^ 2))
    .ok (updM (updM RZ i j v) j i v, i)
  else if names i = "lognormal" ∧ names j = "normal" then
    let vi := std i / mean i
    let v := RX i j * vi / sqrtF (logF (1 + vi ^ 2))
    .ok (updM (updM RZ i j v) j i v, i)
  else if names i = "lognormal" ∧ names j = "lognormal" then
    let vi := std i / mean i
    let vj := std j / mean j
    let v := logF (1 + RX i j * vi * vj)
      / sqrtF (logF (1 + vi ^ 2) * logF (1 + vj ^ 2))
    .ok (updM (updM RZ i j v) j i v, i)
  else
    match (solver i j).brentq with
    | some v => .ok (updM (updM RZ i j v) j i v, i)
    | none =>
      match (solver i j).fsolveA with
      | some v => .ok (updM (updM RZ i j v) j i v, i)
      | none =>
        match (solver i j).fsolveB with
        | some v => .ok (updM (updM RZ i j v) j i v, i)
        | none =>
          match firstConv (solver i j).randTries with
          | some (k, v) =>
            if d ≤ k then .error .indexErr
            else .ok (updM (updM RZ k j v) j k v, k)
          | none => .error .noConvergence

/-- Left fold that propagates the first raised exception, the shape of a
Python `for` loop whose body may `raise`. -/
def foldE {σ : Type} (f : σ → ℕ → Except NatafErr σ) :
    σ → List ℕ → Except NatafErr σ
  | st, [] => .ok st
  | st, j :: rest =>
    match f st j with
    | .ok st2 => foldE f st2 rest
    | .error e => .error e

/-- One outer iteration of the fill (the `for j in range(i + 1, n_dist)`
loop for a fresh outer index `i0`): the inner fold starts at state
`(RZ, i0)` and its final `Rho_Z` is kept; the final value of the Python
variable `i` is discarded because the outer `for i in range(n_dist)`
rebinds it. -/
def ERANataf.rowFill (d : ℕ) (names : ℕ → String) (mean std : ℕ → ℚ)
    (sqrtF logF : ℚ → ℚ) (solver : ℕ → ℕ → PairOutcome) (RX : ℕ → ℕ → ℚ)
    (RZ : ℕ → ℕ → ℚ) (i0 : ℕ) : Except NatafErr (ℕ → ℕ → ℚ) :=
  match foldE (ERANataf.pairBody d names mean std sqrtF logF solver RX)
      (RZ, i0) (List.range' (i0 + 1) (d - (i0 + 1))) with
  | .ok st => .ok st.1
  | .error e => .error e

/-- Transformed-correlation phase of `ERANataf.__init__` (lines
145-254): `Rho_Z` starts as the identity, and the pairwise fill runs
only when `np.linalg.norm(Rho_X - identity) > 10 ** (-5)` (encoded via
squares, see `frobSq`). -/
def ERANataf.fillRhoZ (d : ℕ) (names : ℕ → String) (mean std : ℕ → ℚ)
    (sqrtF logF : ℚ → ℚ) (solver : ℕ → ℕ → PairOutcome)
    (RX : ℕ → ℕ → ℚ) : Except NatafErr (ℕ → ℕ → ℚ) :=
  if (1 / 100000 : ℚ) ^ 2 < frobSq d (fun p q => RX p q - idQ p q) then
    foldE (fun RZ i0 => ERANataf.rowFill d names mean std sqrtF logF solver RX RZ i0)
      idQ (List.range d)
  else .ok idQ

/-- Whole constructor `ERANataf.__init__` (lines 83-262): validation of
the physical correlation matrix, the transformed-correlation fill, and
the final Cholesky factorization of `Rho_Z` (lines 255-262), whose
failure raises.  On success the engine's derived state is the
transformed correlation matrix `Rho_Z` (the factor `A` is
`np.linalg.cholesky(Rho_Z)`, whose existence is exactly the final
check). -/
def ERANataf.construct (d : ℕ) (names : ℕ → String) (mean std : ℕ → ℚ)
    (sqrtF logF : ℚ → ℚ) (solver : ℕ → ℕ → PairOutcome)
    (RX : ℕ → ℕ → ℚ) : Except NatafErr (ℕ → ℕ → ℚ) :=
  match ERANataf.validateRho d RX with
  | .error e => .error e
  | .ok _ =>
    match ERANataf.fillRhoZ d names mean std sqrtF logF solver RX with
    | .error e => .error e
    | .ok RZ => if ¬ cholOK d RZ then .error .transformedNotPD else .ok RZ

/-- Entry `(p, q)` of the transformed correlation matrix of a
successfully constructed engine, `none` when construction raised. -/
def getEntry (r : Except NatafErr (ℕ → ℕ → ℚ)) (p q : ℕ) : Option ℚ :=
  match r with
  | .ok M => some (M p q)
  | .error _ => none

/-! Transforms `X2U`, `U2X` and the deterministic phase of `random`
(ERANataf.py lines 274-379), over an arbitrary field of scalars: the
claims hold for the real-number semantics of the code, and every
function below is exact field arithmetic plus the abstract marginal
CDFs/quantiles and the abstract standard-normal CDF `phi` and quantile
`phiInv` (`stats.norm.cdf` / `stats.norm.ppf`). -/

/-- Matrix inverse by the adjugate formula, `A⁻¹ = det(A)⁻¹ • adj(A)`;
models the exact solve `np.linalg.solve(A, Z)` as `A⁻¹ · Z` for an
invertible `A`. -/
def matInv {F : Type} [Field F] [DecidableEq F] {m : ℕ}
    (A : Matrix (Fin m) (Fin m) F) : Matrix (Fin m) (Fin m) F :=
  (A.det)⁻¹ • A.adjugate

/-- Value phase of `ERANataf.X2U` (ERANataf.py lines 311-314) on an
`n × d` array of points whose shape already matches the engine:
`Z[i, :] = stats.norm.ppf(Marginals[i].cdf(X[:, i]))`, then
`U = np.linalg.solve(A, Z).T`. -/
def ERANataf.X2U {F : Type} [Field F] [DecidableEq F] {n d : ℕ}
    (A : Matrix (Fin d) (Fin d) F) (cdfs : Fin d → F → F) (phiInv : F → F)
    (X : Matrix (Fin n) (Fin d) F) : Matrix (Fin n) (Fin d) F :=
  Matrix.transpose (matInv A * Matrix.of fun i k => phiInv (cdfs i (X k i)))

/-- Value phase of `ERANataf.U2X` (ERANataf.py lines 350-355) on an
`n × d` array of points whose shape already matches the engine:
`U = U.T`, `Z = A @ U`, then
`X[:, i] = Marginals[i].icdf(stats.norm.cdf(Z[i, :]))`. -/
def ERANataf.U2X {F : Type} [Field F] [DecidableEq F] {n d : ℕ}
    (A : Matrix (Fin d) (Fin d) F) (icdfs : Fin d → F → F) (phi : F → F)
    (U : Matrix (Fin n) (Fin d) F) : Matrix (Fin n) (Fin d) F :=
  Matrix.of fun k i => icdfs i (phi ((A * Matrix.transpose U) i k))

/-- Deterministic phase of `ERANataf.random` (ERANataf.py lines 373-379)
applied after the draw `U = np.random.randn(n_dim, n)`: `Z = np.dot(A, U)`
and `jr[:, i] = Marginals[i].icdf(stats.norm.cdf(Z[i, :]))`. -/
def ERANataf.randomMap {F : Type} [Field F] [DecidableEq F] {n d : ℕ}
    (A : Matrix (Fin d) (Fin d) F) (icdfs : Fin d → F → F) (phi : F → F)
    (U : Matrix (Fin d) (Fin n) F) : Matrix (Fin n) (Fin d) F :=
  Matrix.of fun k i => icdfs i (phi ((A * U) i k))

/-! Concrete engine configurations used in the theorems below. -/

/-- Whether a modelled operation completed without raising. -/
def isOkE (r : Except NatafErr (ℕ → ℕ → ℚ)) : Bool :=
  match r with
  | .ok _ => true
  | .error _ => false

/-- Two marginals: a `normal` one and a `standardnormal` one. -/
def namesMixed : ℕ → String
  | 0 => "normal"
  | _ => "standardnormal"

/-- Correlation matrix with a single correlated pair, `rho = 1/2`. -/
def rxHalf : ℕ → ℕ → ℚ
  | 0, 1 => 1 / 2
  | 1, 0 => 1 / 2
  | p, q => if p = q then 1 else 0

/-- Oracle whose bracketed search converges immediately, to `7/10`. -/
def solverBrentq : ℕ → ℕ → PairOutcome :=
  fun _ _ =>
    { brentq := some (7 / 10), fsolveA := none, fsolveB := none,
      randTries := fun _ => none }

/-- Three marginals: two `uniform` ones and a `normal` one. -/
def names3 : ℕ → String
  | 0 => "uniform"
  | 1 => "uniform"
  | _ => "normal"

/-- Correlation matrix in dimension three with correlated pairs `(0, 1)`
(`rho = 1/2`) and `(0, 2)` (`rho = 1/4`); pair `(1, 2)` is
uncorrelated. -/
def rx3 : ℕ → ℕ → ℚ
  | 0, 1 => 1 / 2
  | 1, 0 => 1 / 2
  | 0, 2 => 1 / 4
  | 2, 0 => 1 / 4
  | p, q => if p = q then 1 else 0

/-- Oracle for which the pair `(0, 1)` defeats the bracketed search and
both seeded `fsolve` runs, and converges at the third random restart
(attempt index `2`) to `1/10`; any other episode converges at once. -/
def solverRand : ℕ → ℕ → PairOutcome :=
  fun i j =>
    if i = 0 ∧ j = 1 then
      { brentq := none, fsolveA := none, fsolveB := none,
        randTries := fun k => if k = 2 then some (1 / 10) else none }
    else
      { brentq := some 1, fsolveA := none, fsolveB := none,
        randTries := fun _ => none }

/-- Correlation matrix within Frobenius distance `10 ^ -5` of the
identity whose off-diagonal entries are nonzero. -/
def rxNear : ℕ → ℕ → ℚ :=
  fun p q =>
    if p = q then 1
    else if (p = 0 ∧ q = 1) ∨ (p = 1 ∧ q = 0) then 1 / 1000000 else 0

/-! Helper lemmas. -/

/-- Laplace expansion along the first row agrees with the standard
determinant of the corresponding `k × k` matrix. -/
theorem detHead_eq_det : ∀ (k : ℕ) (M : ℕ → ℕ → ℚ),
    detHead k M = (Matrix.of fun i j : Fin k => M (i : ℕ) (j : ℕ)).det := by
  intro k
  induction k with
  | zero => intro M; simp [detHead, Matrix.det_fin_zero]
  | succ n ih =>
    intro M
    rw [Matrix.det_succ_row_zero, detHead, Finset.sum_range]
    refine Finset.sum_congr rfl fun c _ => ?_
    rw [ih]
    have hsub : (Matrix.of fun i j : Fin (n + 1) => M (i : ℕ) (j : ℕ)).submatrix
        Fin.succ c.succAbove
        = Matrix.of fun i j : Fin n => minorM M (c : ℕ) (i : ℕ) (j : ℕ) := by
      ext p q
      simp only [Matrix.submatrix_apply, Matrix.of_apply, minorM, Fin.succAbove,
        Fin.lt_def, Fin.coe_castSucc, Fin.val_succ, apply_ite (Fin.val)]
    rw [hsub]
    simp

/-- Determinant of a block that agrees with the identity. -/
theorem detHead_idLike : ∀ (k : ℕ) (M : ℕ → ℕ → ℚ),
    (∀ p q, p < k → q < k → M p q = idQ p q) → detHead k M = 1 := by
  intro k
  induction k with
  | zero => intro M _; simp [detHead]
  | succ n ih =>
    intro M hM
    rw [detHead, Finset.sum_eq_single 0]
    · have h00 : M 0 0 = 1 := by
        have := hM 0 0 (Nat.succ_pos n) (Nat.succ_pos n)
        simpa [idQ] using this
      have hmin : detHead n (minorM M 0) = 1 := by
        refine ih (minorM M 0) fun p q hp hq => ?_
        have := hM (p + 1) (q + 1) (Nat.succ_lt_succ hp) (Nat.succ_lt_succ hq)
        simpa [minorM, idQ] using this
      simp [h00, hmin]
    · intro c hc hc0
      have hc1 : M 0 c = 0 := by
        have := hM 0 c (Nat.succ_pos n) (Finset.mem_range.mp hc)
        simpa [idQ, Ne.symm hc0] using this
      simp [hc1]
    · intro h0
      exact absurd (Finset.mem_range.mpr (Nat.succ_pos n)) h0

/-- The lower-triangle completion of the identity is the identity. -/
theorem symLower_idQ : symLower idQ = idQ := by
  funext p q
  by_cases h : q ≤ p <;> simp [symLower, idQ, h, eq_comm]

/-- The identity passes the Cholesky check in every dimension. -/
theorem cholOK_idQ (d : ℕ) : cholOK d idQ := by
  intro k _
  rw [symLower_idQ, detHead_idLike (k + 1) idQ fun p q _ _ => rfl]
  norm_num

/-- Adjugate-based inverse is a right inverse for matrices with invertible
determinant. -/
theorem matInv_mul {F : Type} [Field F] [DecidableEq F] {m : ℕ}
    (A : Matrix (Fin m) (Fin m) F) (hA : IsUnit A.det) :
    A * matInv A = 1 := by
  unfold matInv
  rw [Matrix.mul_smul, Matrix.mul_adjugate, smul_smul,
    inv_mul_cancel₀ (IsUnit.ne_zero hA), one_smul]

/-! Claim theorems. -/

/-- Claim C1, counterexample: with the single discrete marginal `poisson`
and a well-shaped input, `cdf` runs no discrete-marginal guard and
proceeds (`Except.ok`), while `X2U` raises the unsupported-operation
error — so the claim that all three of `X2U`, `pdf`, `cdf` raise is
false at this input. -/
theorem claim1_counterexample :
    ERANataf.cdfCheck ["poisson"] 2 1 1 = .ok ()
    ∧ ERANataf.X2Ucheck ["poisson"] 2 1 1 = .error .discreteMarginal :=
  ⟨rfl, rfl⟩

/-- Claim C1, amended: when at least one marginal is a discrete family,
`X2U` and `pdf` raise the unsupported-operation error, but `cdf` performs
no discrete-marginal check: whatever the input shape, `cdf` never raises
that error. -/
theorem claim1_amended (names : List String)
    (hdisc : ∃ s ∈ names, s ∈ discreteNames) (a b c : ℕ) :
    ERANataf.X2Ucheck names a b c = .error .discreteMarginal
    ∧ ERANataf.pdfCheck names a b c = .error .discreteMarginal
    ∧ ∀ a2 b2 c2 : ℕ,
        ERANataf.cdfCheck names a2 b2 c2 ≠ .error .discreteMarginal := by
  have hany : names.any (fun s => discreteNames.contains s) = true := by
    rcases hdisc with ⟨s, hs, hsd⟩
    refine List.any_eq_true.mpr ⟨s, hs, ?_⟩
    exact List.elem_eq_true_of_mem hsd
  refine ⟨?_, ?_, ?_⟩
  · unfold ERANataf.X2Ucheck
    rw [if_pos hany]
  · unfold ERANataf.pdfCheck
    rw [if_pos hany]
  · intro a2 b2 c2 h
    unfold ERANataf.cdfCheck at h
    split_ifs at h <;> simp_all [ite_eq_iff]

/-- Claim C1, witness for the amended theorem at the marginal list
`[poisson]` and input shape `(2, 1, 1)`. -/
theorem claim1_amended_witness :
    ERANataf.X2Ucheck ["poisson"] 2 1 1 = .error .discreteMarginal
    ∧ ERANataf.pdfCheck ["poisson"] 2 1 1 = .error .discreteMarginal
    ∧ ∀ a2 b2 c2 : ℕ,
        ERANataf.cdfCheck ["poisson"] a2 b2 c2 ≠ .error .discreteMarginal :=
  claim1_amended ["poisson"] ⟨"poisson", by decide, by decide⟩ 2 1 1

/-- Claim C2, evaluation at the failing input: a three-dimensional engine
whose pair `(0, 1)` (physical correlation 1/2) falls through to the
random-restart loop and converges at attempt index 2 with value 1/10.
Because the loop `for i in range(10)` overwrites the pair index `i`, the
convergent value is stored at entries `(2, 1)` and `(1, 2)` instead of
`(0, 1)` and `(1, 0)`, which keep their identity value 0; and the rest of
row 0 runs with `i = 2`, so pair `(0, 2)` (physical correlation 1/4) is
never solved and entries `(0, 2)`, `(2, 0)` also keep 0. -/
theorem claim2_eval :
    rx3 0 1 = 1 / 2 ∧ rx3 0 2 = 1 / 4
    ∧ getEntry (ERANataf.construct 3 names3 (fun _ => 0) (fun _ => 1)
        id id solverRand rx3) 0 1 = some 0
    ∧ getEntry (ERANataf.construct 3 names3 (fun _ => 0) (fun _ => 1)
        id id solverRand rx3) 1 0 = some 0
    ∧ getEntry (ERANataf.construct 3 names3 (fun _ => 0) (fun _ => 1)
        id id solverRand rx3) 2 1 = some (1 / 10)
    ∧ getEntry (ERANataf.construct 3 names3 (fun _ => 0) (fun _ => 1)
        id id solverRand rx3) 1 2 = some (1 / 10)
    ∧ getEntry (ERANataf.construct 3 names3 (fun _ => 0) (fun _ => 1)
        id id solverRand rx3) 0 2 = some 0
    ∧ getEntry (ERANataf.construct 3 names3 (fun _ => 0) (fun _ => 1)
        id id solverRand rx3) 2 0 = some 0 := by
  norm_num +decide [getEntry, ERANataf.construct, ERANataf.validateRho,
    ERANataf.fillRhoZ, ERANataf.rowFill, ERANataf.pairBody, foldE,
    frobSq, idQ, updM, rx3, names3, solverRand,
    show firstConv (fun k => if k = 2 then some ((1 : ℚ) / 10) else none)
      = some (2, 1 / 10) from rfl,
    cholOK, symmOK, diagOK, detHead, minorM, symLower,
    Nat.forall_lt_succ, Finset.sum_range_succ, Finset.sum_range_zero,
    List.range_succ, List.range']

/-- Claim C3, counterexample: a two-dimensional engine whose marginals
are both normal-family — one named `normal`, the other `standardnormal` —
with physical correlation 1/2 is not recognized by the equal-name fast
path; the pair goes to the numerical solver and the engine stores the
root-finder output (here 7/10), not `rho_X` — so `rho_Z(0,1) = rho_X(0,1)`
exactly is false for this constructed engine. -/
theorem claim3_counterexample :
    getEntry (ERANataf.construct 2 namesMixed (fun _ => 0) (fun _ => 1)
      id id solverBrentq rxHalf) 0 1 = some (7 / 10)
    ∧ rxHalf 0 1 = 1 / 2
    ∧ namesMixed 0 = "normal" ∧ namesMixed 1 = "standardnormal" := by
  norm_num +decide [getEntry, ERANataf.construct, ERANataf.validateRho,
    ERANataf.fillRhoZ, ERANataf.rowFill, ERANataf.pairBody, foldE,
    frobSq, idQ, updM, rxHalf, namesMixed, solverBrentq, firstConv,
    cholOK, symmOK, diagOK, detHead, minorM, symLower,
    Nat.forall_lt_succ, Finset.sum_range_succ, Finset.sum_range_zero,
    List.range_succ, List.range']

/-- Claim C3, amended: the exact copy `rho_Z(i,j) = rho_X(i,j)` holds for
a nonzero-correlation pair whose marginals carry the same normal-family
name — both `normal`, or both `standardnormal`: the fill step for that
pair stores `rho_X(i,j)` at `(i,j)` and `rho_X(j,i)` at `(j,i)` exactly,
for every solver oracle (the solver is never consulted).  A mixed
`normal` / `standardnormal` pair instead reaches the numerical solver
(see the counterexample). -/
theorem claim3_amended (d : ℕ) (names : ℕ → String) (mean std : ℕ → ℚ)
    (sqrtF logF : ℚ → ℚ) (solver : ℕ → ℕ → PairOutcome) (RX : ℕ → ℕ → ℚ)
    (RZ : ℕ → ℕ → ℚ) (i j : ℕ) (hij : i < j) (hjd : j < d)
    (hx : RX i j ≠ 0)
    (hnm : (names i = "normal" ∧ names j = "normal")
      ∨ (names i = "standardnormal" ∧ names j = "standardnormal")) :
    ∃ RZ2, ERANataf.pairBody d names mean std sqrtF logF solver RX (RZ, i) j
        = .ok (RZ2, i) ∧ RZ2 i j = RX i j ∧ RZ2 j i = RX j i := by
  have hne : i ≠ j := Nat.ne_of_lt hij
  refine ⟨updM (updM RZ i j (RX i j)) j i (RX j i), ?_, ?_, ?_⟩
  · simp only [ERANataf.pairBody]
    rw [if_neg (by omega), if_neg hx, if_pos hnm.symm]
  · simp [updM, hne, Ne.symm hne]
  · simp [updM]

/-- Claim C3, witness for the amended theorem: both marginals named
`normal`, pair `(0, 1)` with `rho_X = 1/2`. -/
theorem claim3_amended_witness :
    ∃ RZ2, ERANataf.pairBody 2 (fun _ => "normal") (fun _ => 0) (fun _ => 1)
        id id solverBrentq rxHalf (idQ, 0) 1
        = .ok (RZ2, 0) ∧ RZ2 0 1 = rxHalf 0 1 ∧ RZ2 1 0 = rxHalf 1 0 :=
  claim3_amended 2 (fun _ => "normal") (fun _ => 0) (fun _ => 1) id id
    solverBrentq rxHalf idQ 0 1 (by norm_num) (by norm_num)
    (by norm_num [rxHalf]) (Or.inl ⟨rfl, rfl⟩)

/-- Claim C4: if the supplied physical correlation matrix passes
validation and lies within Frobenius norm `10 ^ -5` of the identity, the
construction skips the pairwise solver entirely (the conclusion holds for
every solver oracle, which is never consulted) and the derived
standard-normal correlation matrix is exactly the identity. -/
theorem claim4 (d : ℕ) (names : ℕ → String) (mean std : ℕ → ℚ)
    (sqrtF logF : ℚ → ℚ) (solver : ℕ → ℕ → PairOutcome) (RX : ℕ → ℕ → ℚ)
    (hval : ERANataf.validateRho d RX = .ok ())
    (hnear : frobSq d (fun p q => RX p q - idQ p q) ≤ (1 / 100000 : ℚ) ^ 2) :
    ERANataf.construct d names mean std sqrtF logF solver RX = .ok idQ := by
  have hfill : ERANataf.fillRhoZ d names mean std sqrtF logF solver RX
      = .ok idQ := by
    unfold ERANataf.fillRhoZ
    rw [if_neg (not_lt.mpr hnear)]
  unfold ERANataf.construct
  simp only [hval, hfill]
  rw [if_neg (not_not_intro (cholOK_idQ d))]

/-- Claim C4, witness: a 2-by-2 correlation matrix with nonzero
off-diagonal entries `10 ^ -6` (Frobenius distance `sqrt 2 * 10 ^ -6`
from the identity) constructs an engine whose `Rho_Z` is exactly the
identity. -/
theorem claim4_witness :
    rxNear 0 1 ≠ 0
    ∧ ERANataf.construct 2 namesMixed (fun _ => 0) (fun _ => 1) id id
        solverBrentq rxNear = .ok idQ := by
  constructor
  · norm_num [rxNear]
  · apply claim4
    · have hchol : cholOK 2 rxNear := by
        intro k hk
        interval_cases k <;>
          norm_num [detHead, minorM, symLower, rxNear, Finset.sum_range_succ]
      have hsym : symmOK 2 rxNear := by
        intro p hp q hq
        interval_cases p <;> interval_cases q <;> norm_num [rxNear]
      have hdiag : diagOK 2 rxNear := by
        intro p hp
        interval_cases p <;> norm_num [rxNear]
      unfold ERANataf.validateRho
      rw [if_neg (not_not_intro hchol), if_neg (not_not_intro hsym),
        if_neg (not_not_intro hdiag)]
    · norm_num [frobSq, rxNear, idQ, Finset.sum_range_succ]

/-- Claim C5: a physical correlation matrix with a diagonal entry
different from 1, or asymmetric, or failing the Cholesky
(positive-definiteness) check, always makes construction raise one of the
three invalid-correlation errors, so no engine state (no `Rho_Z`, no
Cholesky factor) is ever produced. -/
theorem claim5 (d : ℕ) (names : ℕ → String) (mean std : ℕ → ℚ)
    (sqrtF logF : ℚ → ℚ) (solver : ℕ → ℕ → PairOutcome) (RX : ℕ → ℕ → ℚ)
    (hbad : (∃ p, p < d ∧ RX p p ≠ 1)
      ∨ (∃ p q, p < d ∧ q < d ∧ RX p q ≠ RX q p)
      ∨ ¬ cholOK d RX) :
    ∃ e, ERANataf.construct d names mean std sqrtF logF solver RX = .error e
      ∧ (e = NatafErr.notPosDef ∨ e = NatafErr.notSymmetric
        ∨ e = NatafErr.notUnitDiag) := by
  unfold ERANataf.construct ERANataf.validateRho
  by_cases hchol : cholOK d RX
  · rw [if_neg (not_not_intro hchol)]
    by_cases hsym : symmOK d RX
    · rw [if_neg (not_not_intro hsym)]
      have hdiag : ¬ diagOK d RX := by
        rcases hbad with ⟨p, hp, hne⟩ | ⟨p, q, hp, hq, hne⟩ | h
        · intro hdg; exact hne (hdg p hp)
        · exact (hne (sub_eq_zero.mp (hsym p hp q hq))).elim
        · exact (h hchol).elim
      rw [if_pos hdiag]
      exact ⟨.notUnitDiag, rfl, Or.inr (Or.inr rfl)⟩
    · rw [if_pos hsym]
      exact ⟨.notSymmetric, rfl, Or.inr (Or.inl rfl)⟩
  · rw [if_pos hchol]
    exact ⟨.notPosDef, rfl, Or.inl rfl⟩

/-- Claim C5, witness: the symmetric, positive-definite matrix `2 * I`
has diagonal entries different from 1 and construction fails with an
invalid-correlation error. -/
theorem claim5_witness :
    (fun p q => if p = q then (2 : ℚ) else 0) 0 0 ≠ 1
    ∧ ∃ e, ERANataf.construct 2 namesMixed (fun _ => 0) (fun _ => 1) id id
        solverBrentq (fun p q => if p = q then 2 else 0) = .error e
      ∧ (e = NatafErr.notPosDef ∨ e = NatafErr.notSymmetric
        ∨ e = NatafErr.notUnitDiag) :=
  ⟨by norm_num,
    claim5 2 namesMixed (fun _ => 0) (fun _ => 1) id id solverBrentq
      (fun p q => if p = q then 2 else 0) (Or.inl ⟨0, by norm_num⟩)⟩

/-- Claim C6, counterexample: constructing a `Uniform` with
`lower = 1 > 0 = upper`, and a `TruncatedExponentialDist` with
`lower = 1 > 0 = upper`, both succeed — construction performs no
parameter validation and raises no invalid-parameter error. -/
theorem claim6_counterexample :
    (0 : ℚ) < 1
    ∧ Uniform.init 1 0 = .ok { lower := 1, upper := 0 }
    ∧ TruncatedExponentialDist.init 1 1 0
      = .ok { lower := 1, upper := 0, lamda := 1, scale := 1, loc := 1,
              b := -1 } := by
  refine ⟨by norm_num, rfl, ?_⟩
  unfold TruncatedExponentialDist.init
  norm_num

/-- Claim C6, amended: the `Uniform` and `TruncatedExponentialDist`
constructors store the supplied parameters (and derived quantities) and
always succeed, for every parameter combination — mutually inconsistent
bounds included; no check is made at construction time. -/
theorem claim6_amended (lamda lower upper : ℚ) :
    Uniform.init lower upper = .ok { lower := lower, upper := upper }
    ∧ TruncatedExponentialDist.init lamda lower upper
      = .ok { lower := lower, upper := upper, lamda := lamda,
              scale := 1 / lamda, loc := lower,
              b := (upper - lower) / (1 / lamda) } :=
  ⟨rfl, rfl⟩

/-- Claim C7: for an engine with invertible Cholesky factor and
continuous invertible marginals, the inverse transform undoes the forward
transform exactly — `U2X (X2U X) = X` — at every array of points whose
coordinates are interior to their marginal supports (each marginal CDF
value strictly between 0 and 1), over the exact field semantics of the
code. -/
theorem claim7 {F : Type} [LinearOrderedField F] [DecidableEq F] {n d : ℕ}
    (A : Matrix (Fin d) (Fin d) F) (cdfs icdfs : Fin d → F → F)
    (phi phiInv : F → F) (X : Matrix (Fin n) (Fin d) F)
    (hA : IsUnit A.det)
    (hint : ∀ (k : Fin n) (i : Fin d), 0 < cdfs i (X k i) ∧ cdfs i (X k i) < 1)
    (hphi : ∀ p : F, 0 < p → p < 1 → phi (phiInv p) = p)
    (hicdf : ∀ (i : Fin d) (x : F), 0 < cdfs i x → cdfs i x < 1 →
      icdfs i (cdfs i x) = x) :
    ERANataf.U2X A icdfs phi (ERANataf.X2U A cdfs phiInv X) = X := by
  unfold ERANataf.U2X ERANataf.X2U
  ext k i
  rw [Matrix.transpose_transpose, ← Matrix.mul_assoc, matInv_mul A hA,
    Matrix.one_mul]
  simp only [Matrix.of_apply]
  rw [hphi _ (hint k i).1 (hint k i).2, hicdf i _ (hint k i).1 (hint k i).2]

/-- Claim C7, witness: the identity engine in one dimension with identity
marginal CDF and identity standard-normal CDF round-trips the interior
point `1/2`. -/
theorem claim7_witness :
    ERANataf.U2X (1 : Matrix (Fin 1) (Fin 1) ℚ) (fun _ => id) id
      (ERANataf.X2U (1 : Matrix (Fin 1) (Fin 1) ℚ) (fun _ => id) id
        (Matrix.of fun (_ : Fin 1) (_ : Fin 1) => (1 / 2 : ℚ)))
      = Matrix.of fun (_ : Fin 1) (_ : Fin 1) => (1 / 2 : ℚ) :=
  claim7 1 (fun _ => id) (fun _ => id) id id
    (Matrix.of fun (_ : Fin 1) (_ : Fin 1) => (1 / 2 : ℚ))
    (by simp) (fun k i => by norm_num) (fun p _ _ => rfl) (fun i x _ _ => rfl)

/-- Claim C8: the deterministic mapping `random` applies to a drawn
`d × n` standard-normal matrix (`Z = A U`, then coordinatewise marginal
inverse-CDF of the standard-normal CDF) coincides exactly with `U2X`
applied to the same draws arranged as an `n × d` array, for every engine
and every draw. -/
theorem claim8 {F : Type} [Field F] [DecidableEq F] {n d : ℕ}
    (A : Matrix (Fin d) (Fin d) F) (icdfs : Fin d → F → F) (phi : F → F)
    (U : Matrix (Fin n) (Fin d) F) :
    ERANataf.randomMap A icdfs phi (Matrix.transpose U)
      = ERANataf.U2X A icdfs phi U := rfl

/-- Claim C9: for a uniform(0,1) marginal the log-density at `1/2` is 0
and at `3/2` is negative infinity; in general, outside the support both
the uniform and the half-normal marginals return negative infinity
(`⊥`) instead of raising (the hypothesis `llog 1 = 0` is the
corresponding property of the modelled `np.log`). -/
theorem claim9 (llog : ℚ → ℚ) (qpi : ℚ) (hlog1 : llog 1 = 0) :
    Uniform.log_pdf_eval llog { lower := 0, upper := 1 } (1 / 2) = (0 : ℚ)
    ∧ Uniform.log_pdf_eval llog { lower := 0, upper := 1 } (3 / 2) = ⊥
    ∧ (∀ (d : Uniform) (x : ℚ), d.lower ≤ d.upper →
        x < d.lower ∨ d.upper < x → Uniform.log_pdf_eval llog d x = ⊥)
    ∧ (∀ (h : Halfnormal) (x : ℚ), x < 0 →
        Halfnormal.log_pdf_eval llog qpi h x = ⊥) := by
  refine ⟨?_, ?_, ?_, ?_⟩
  · rw [Uniform.log_pdf_eval, if_pos (by norm_num)]
    norm_num [hlog1]
  · rw [Uniform.log_pdf_eval, if_neg (by norm_num)]
  · intro d x hlu hout
    rw [Uniform.log_pdf_eval, if_neg]
    push_neg
    rcases hout with hlt | hgt
    · exact mul_pos_of_neg_of_neg (by linarith) (by linarith)
    · exact mul_pos (by linarith) (by linarith)
  · intro h x hx
    rw [Halfnormal.log_pdf_eval, if_neg (by linarith)]

/-- Claim C9, witness: instantiation at a concrete log function with
`llog 1 = 0` (any float log has this property exactly) and `qpi = 3`. -/
theorem claim9_witness :
    Uniform.log_pdf_eval (fun _ => 0) { lower := 0, upper := 1 } (1 / 2)
      = (0 : ℚ)
    ∧ Uniform.log_pdf_eval (fun _ => 0) { lower := 0, upper := 1 } (3 / 2) = ⊥
    ∧ (∀ (d : Uniform) (x : ℚ), d.lower ≤ d.upper →
        x < d.lower ∨ d.upper < x →
        Uniform.log_pdf_eval (fun _ => 0) d x = ⊥)
    ∧ (∀ (h : Halfnormal) (x : ℚ), x < 0 →
        Halfnormal.log_pdf_eval (fun _ => 0) 3 h x = ⊥) :=
  claim9 (fun _ => 0) 3 rfl

/-- Claim C10, evaluation at the failing input: in the same
three-dimensional engine as claim C2, the pair `(1, 2)` has physical
correlation exactly 0 and is skipped by the fill, yet the constructed
engine ends with `rho_Z(1, 2) = 1/10`, because the random-restart store
of pair `(0, 1)` lands on entries `(2, 1)` and `(1, 2)` through the
overwritten loop index. -/
theorem claim10_eval :
    rx3 1 2 = 0
    ∧ getEntry (ERANataf.construct 3 names3 (fun _ => 0) (fun _ => 1)
        id id solverRand rx3) 1 2 = some (1 / 10) := by
  norm_num +decide [getEntry, ERANataf.construct, ERANataf.validateRho,
    ERANataf.fillRhoZ, ERANataf.rowFill, ERANataf.pairBody, foldE,
    frobSq, idQ, updM, rx3, names3, solverRand,
    show firstConv (fun k => if k = 2 then some ((1 : ℚ) / 10) else none)
      = some (2, 1 / 10) from rfl,
    cholOK, symmOK, diagOK, detHead, minorM, symLower,
    Nat.forall_lt_succ, Finset.sum_range_succ, Finset.sum_range_zero,
    List.range_succ, List.range']
